import Mathlib

/-
Shallow embedding of `mo_analysis.py` from mcangd/python-trading-robot.

The `mo_analysis` class holds a reference to a StockFrame, a symbol-group
handle, a price frame, a dictionary of signal rules
(`_mo_analysis_signals`) and two key-order lists (`_mo_analysis_key`,
`_mo_analysis_comp_key`).  Python dictionaries (insertion ordered,
update-in-place) are embedded as association lists over `String` keys with
an insert operation that updates in place when the key is present and
appends otherwise, exactly the semantics of `d[k] = v` in Python 3.7+.

Rule dictionaries hold heterogeneous values (floats, strings, operator
objects, None), embedded as the inductive `Value`.  Floats only ever carry
the numeric thresholds; no float arithmetic occurs in the source, so they
are embedded as rationals.
-/

namespace MoAnalysisModel

/-- The closed relational-operator enumeration of the data model; the
source passes operator objects (for example `operator.gt`) as `Any`. -/
inductive RelOp where
  | GT
  | LT
  | GE
  | LE
  | EQ
  | NE
deriving DecidableEq

/-- A Python value stored in a rule dictionary: `None`, a numeric
threshold, a string, or a relational-operator object. -/
inductive Value where
  | none
  | num (q : ℚ)
  | str (s : String)
  | op (o : RelOp)
deriving DecidableEq

/-- One rule dictionary, such as `_mo_analysis_signals[indicator]`. -/
abbrev RuleDict := List (String × Value)

/-- Lookup in an insertion-ordered dictionary: the first binding of a key. -/
def aGet {α : Type} : List (String × α) → String → Option α
  | [], _ => Option.none
  | p :: t, k => if p.1 = k then Option.some p.2 else aGet t k

/-- Python dictionary assignment `d[k] = v`: update in place when the key
is present, append at the end otherwise. -/
def aInsert {α : Type} (d : List (String × α)) (k : String) (v : α) :
    List (String × α) :=
  if d.any (fun p => p.1 = k) then
    d.map (fun p => if p.1 = k then (k, v) else p)
  else
    d ++ [(k, v)]

/-- The price frame held by the StockFrame.  The core treats it as opaque
data; only its identity and its multi-index flag matter to the claims. -/
structure Frame where
  data : List (String × List ℚ)
  multiIndex : Bool
deriving DecidableEq

/-- The symbol-group iteration handle exposed by a StockFrame. -/
structure SymbolGroups where
  groups : List (String × Frame)
deriving DecidableEq

/-- The external StockFrame collaborator: exposes `frame` and
`symbol_groups` attributes, as read by `mo_analysis.__init__`. -/
structure StockFrame where
  frame : Frame
  symbol_groups : SymbolGroups
deriving DecidableEq

/-- The attribute state of an `mo_analysis` object (leading underscores of
the Python attribute names dropped). -/
structure MoAnalysis where
  stock_frame : StockFrame
  price_groups : SymbolGroups
  current_mo_analysis : List (String × Value)
  mo_analysis_signals : List (String × RuleDict)
  frame : Frame
  mo_analysis_comp_key : List String
  mo_analysis_key : List String
deriving DecidableEq

/-- `mo_analysis.__init__`: captures the StockFrame, its symbol groups and
its frame, and starts with empty signal dictionaries and key lists.  The
trailing `if self.is_multi_index: True` is a pure read with no effect. -/
def mo_analysis_init (price_data_frame : StockFrame) : MoAnalysis :=
  { stock_frame := price_data_frame
    price_groups := price_data_frame.symbol_groups
    current_mo_analysis := []
    mo_analysis_signals := []
    frame := price_data_frame.frame
    mo_analysis_comp_key := []
    mo_analysis_key := [] }

/-- Result of `get_mo_analysis_signal`: dynamically either one rule
dictionary or the whole `_mo_analysis_signals` dictionary. -/
inductive GetResult where
  | rule (d : RuleDict)
  | registry (s : List (String × RuleDict))
deriving DecidableEq

/-- `get_mo_analysis_signal(self, indicator=None)`:
`if indicator and indicator in self._mo_analysis_signals: return
self._mo_analysis_signals[indicator] else: return
self._mo_analysis_signals`.  `None` and the empty string are falsy. -/
def get_mo_analysis_signal (m : MoAnalysis) (indicator : Option String) :
    GetResult :=
  match indicator with
  | Option.none => GetResult.registry m.mo_analysis_signals
  | Option.some ind =>
    if ind = "" then GetResult.registry m.mo_analysis_signals
    else
      match aGet m.mo_analysis_signals ind with
      | Option.some d => GetResult.rule d
      | Option.none => GetResult.registry m.mo_analysis_signals

/-- `set_mo_analysis_signal`: creates an empty rule dictionary and appends
the key to `_mo_analysis_key` when the indicator is new, then assigns the
eight threshold fields in source order.  The source never validates and
never raises; the four max arguments default to `None` in Python, rendered
here by passing `Value.none` explicitly. -/
def set_mo_analysis_signal (m : MoAnalysis) (indicator : String)
    (buy sell condition_buy condition_sell : Value)
    (buy_max sell_max condition_buy_max condition_sell_max : Value) :
    MoAnalysis :=
  let signals0 :=
    if m.mo_analysis_signals.any (fun p => p.1 = indicator) then
      m.mo_analysis_signals
    else
      m.mo_analysis_signals ++ [(indicator, ([] : RuleDict))]
  let keys0 :=
    if m.mo_analysis_signals.any (fun p => p.1 = indicator) then
      m.mo_analysis_key
    else
      m.mo_analysis_key ++ [indicator]
  let d0 := (aGet signals0 indicator).getD []
  let d1 := aInsert d0 "buy" buy
  let d2 := aInsert d1 "sell" sell
  let d3 := aInsert d2 "buy_operator" condition_buy
  let d4 := aInsert d3 "sell_operator" condition_sell
  let d5 := aInsert d4 "buy_max" buy_max
  let d6 := aInsert d5 "sell_max" sell_max
  let d7 := aInsert d6 "buy_operator_max" condition_buy_max
  let d8 := aInsert d7 "sell_operator_max" condition_sell_max
  { m with
    mo_analysis_signals := aInsert signals0 indicator d8
    mo_analysis_key := keys0 }

/-- `set_mo_analysis_signal_compare`: derives the key
`"{ind_1}_comp_{ind_2}"`, creates an empty rule dictionary and appends the
key to `_mo_analysis_comp_key` when new, then assigns `type`,
`indicator_1`, `indicator_2`, `buy_operator` and `condition_sell` (the
sell operator is stored under the key `condition_sell` in the source). -/
def set_mo_analysis_signal_compare (m : MoAnalysis)
    (indicator_1 indicator_2 : String)
    (condition_buy condition_sell : Value) : MoAnalysis :=
  let key := indicator_1 ++ "_comp_" ++ indicator_2
  let signals0 :=
    if m.mo_analysis_signals.any (fun p => p.1 = key) then
      m.mo_analysis_signals
    else
      m.mo_analysis_signals ++ [(key, ([] : RuleDict))]
  let compKeys0 :=
    if m.mo_analysis_signals.any (fun p => p.1 = key) then
      m.mo_analysis_comp_key
    else
      m.mo_analysis_comp_key ++ [key]
  let d0 := (aGet signals0 key).getD []
  let d1 := aInsert d0 "type" (Value.str "comparison")
  let d2 := aInsert d1 "indicator_1" (Value.str indicator_1)
  let d3 := aInsert d2 "indicator_2" (Value.str indicator_2)
  let d4 := aInsert d3 "buy_operator" condition_buy
  let d5 := aInsert d4 "condition_sell" condition_sell
  { m with
    mo_analysis_signals := aInsert signals0 key d5
    mo_analysis_comp_key := compKeys0 }

/-- The `price_data_frame` property getter: returns `self._frame`. -/
def price_data_frame (m : MoAnalysis) : Frame :=
  m.frame

/-- The `price_data_frame` property setter: assigns only `self._frame`. -/
def price_data_frame_set (m : MoAnalysis) (price_data_frame : Frame) :
    MoAnalysis :=
  { m with frame := price_data_frame }

/-- The `is_multi_index` property: whether the frame index is a
MultiIndex. -/
def is_multi_index (m : MoAnalysis) : Bool :=
  m.frame.multiIndex

/-- Modelled from the spec: `RelOp` applied to two numeric values.  The
SignalEvaluator is absent from `src/` (only the registry lives in
`mo_analysis.py`); the spec gives GT `a>b`, LT `a<b`, GE `a>=b`, LE
`a<=b`, EQ `a==b`, NE `a!=b`. -/
def RelOp.apply : RelOp → ℚ → ℚ → Bool
  | RelOp.GT, a, b => decide (a > b)
  | RelOp.LT, a, b => decide (a < b)
  | RelOp.GE, a, b => decide (a ≥ b)
  | RelOp.LE, a, b => decide (a ≤ b)
  | RelOp.EQ, a, b => decide (a = b)
  | RelOp.NE, a, b => decide (a ≠ b)

/-- Modelled from the spec: the threshold-rule buy verdict of the
SignalEvaluator, absent from `src/`.  The spec says `buy_signal =
buy_operator(v, buy)`, and when `buy_max` is set the buy signal is
suppressed (forced to false) when `buy_max_operator(v, buy_max)` holds. -/
def thresholdBuySignal (buy : ℚ) (buy_operator : RelOp)
    (buy_max : Option ℚ) (buy_max_operator : Option RelOp) (v : ℚ) : Bool :=
  let base := buy_operator.apply v buy
  match buy_max, buy_max_operator with
  | Option.some bm, Option.some bmop => base && !(bmop.apply v bm)
  | _, _ => base

/-- A concrete StockFrame used by concrete-state theorems. -/
def sfEx : StockFrame :=
  { frame := { data := [("close", [1, 2, 3])], multiIndex := false }
    symbol_groups := { groups := [] } }

/-- A registry holding one threshold rule named `ema` and nothing else,
used as a concrete state by several witnesses. -/
def exThreshold : MoAnalysis :=
  set_mo_analysis_signal (mo_analysis_init sfEx) "ema" (Value.num 50)
    (Value.num 30) (Value.op RelOp.GT) (Value.op RelOp.LT) Value.none
    Value.none Value.none Value.none

/-- A registry holding one threshold rule named `ema` whose four max-guard
fields are all populated. -/
def exWithMax : MoAnalysis :=
  set_mo_analysis_signal (mo_analysis_init sfEx) "ema" (Value.num 50)
    (Value.num 30) (Value.op RelOp.GT) (Value.op RelOp.LT) (Value.num 70)
    (Value.num 10) (Value.op RelOp.GT) (Value.op RelOp.LT)

/-
Generic lemmas about the association-list embedding of Python dictionaries.
-/

theorem aGet_aInsert_self {α : Type} (d : List (String × α)) (k : String) (v : α) :
    aGet (aInsert d k v) k = Option.some v := by
  induction d with
  | nil => simp [aInsert, aGet]
  | cons p t ih =>
    by_cases hp : p.1 = k
    · simp [aInsert, aGet, hp]
    · by_cases ht : t.any (fun q => q.1 = k)
      · simp [aInsert, aGet, hp, ht] at ih ⊢
        exact ih
      · simp [aInsert, aGet, hp, ht] at ih ⊢
        exact ih

theorem aGet_update_ne {α : Type} (d : List (String × α)) (k k' : String) (v : α)
    (h : k' ≠ k) :
    aGet (d.map (fun p => if p.1 = k then (k, v) else p)) k' = aGet d k' := by
  induction d with
  | nil => rfl
  | cons p t ih =>
    by_cases hp : p.1 = k
    · simp [aGet, hp, Ne.symm h, ih]
    · simp [aGet, hp, ih]

theorem aGet_append_of_some {α : Type} (d e : List (String × α)) (k : String) (v : α)
    (h : aGet d k = Option.some v) : aGet (d ++ e) k = Option.some v := by
  induction d with
  | nil => simp [aGet] at h
  | cons p t ih =>
    by_cases hp : p.1 = k
    · simp [aGet, hp] at h ⊢
      exact h
    · simp [aGet, hp] at h ⊢
      exact ih h

theorem aGet_append_of_none {α : Type} (d e : List (String × α)) (k : String)
    (h : aGet d k = Option.none) : aGet (d ++ e) k = aGet e k := by
  induction d with
  | nil => rfl
  | cons p t ih =>
    by_cases hp : p.1 = k
    · simp [aGet, hp] at h
    · simp [aGet, hp] at h ⊢
      exact ih h

theorem aGet_aInsert_ne {α : Type} (d : List (String × α)) (k k' : String) (v : α)
    (h : k' ≠ k) : aGet (aInsert d k v) k' = aGet d k' := by
  unfold aInsert
  by_cases hc : d.any (fun p => p.1 = k)
  · rw [if_pos hc]
    exact aGet_update_ne d k k' v h
  · rw [if_neg hc]
    cases hg : aGet d k' with
    | some w => exact aGet_append_of_some d _ k' w hg
    | none =>
      rw [aGet_append_of_none d [(k, v)] k' hg]
      simp [aGet, Ne.symm h, hg]

theorem any_eq_isSome_aGet {α : Type} (d : List (String × α)) (k : String) :
    (d.any (fun p => p.1 = k)) = (aGet d k).isSome := by
  induction d with
  | nil => simp [aGet]
  | cons p t ih =>
    by_cases hp : p.1 = k
    · simp [aGet, hp]
    · simp [aGet, hp, ih]

theorem mapFst_update {α : Type} (d : List (String × α)) (k : String) (v : α) :
    (d.map (fun p => if p.1 = k then (k, v) else p)).map Prod.fst = d.map Prod.fst := by
  induction d with
  | nil => rfl
  | cons p t ih =>
    by_cases hp : p.1 = k
    · simp [hp, ih]
    · simp [hp, ih]

theorem mapFst_aInsert_of_any {α : Type} (d : List (String × α)) (k : String) (v : α)
    (h : d.any (fun p => p.1 = k) = true) :
    (aInsert d k v).map Prod.fst = d.map Prod.fst := by
  unfold aInsert
  rw [h]
  simp only [if_true]
  exact mapFst_update d k v

/-
Derived facts about the registry operations, shared by several claim
theorems below.
-/

theorem any_false_iff_aGet_none {α : Type} (d : List (String × α)) (k : String) :
    (d.any (fun p => p.1 = k)) = false ↔ aGet d k = Option.none := by
  rw [any_eq_isSome_aGet]
  cases aGet d k <;> simp

theorem set_signal_stored_fields (m : MoAnalysis) (ind : String)
    (b s cb cs bm sm cbm csm : Value) :
    ∃ d, aGet (set_mo_analysis_signal m ind b s cb cs bm sm cbm
        csm).mo_analysis_signals ind = Option.some d ∧
      aGet d "buy" = Option.some b ∧
      aGet d "sell" = Option.some s ∧
      aGet d "buy_operator" = Option.some cb ∧
      aGet d "sell_operator" = Option.some cs ∧
      aGet d "buy_max" = Option.some bm ∧
      aGet d "sell_max" = Option.some sm ∧
      aGet d "buy_operator_max" = Option.some cbm ∧
      aGet d "sell_operator_max" = Option.some csm := by
  simp only [set_mo_analysis_signal]
  refine ⟨_, aGet_aInsert_self _ _ _, ?_, ?_, ?_, ?_, ?_, ?_, ?_, ?_⟩ <;>
    simp [aGet_aInsert_self, aGet_aInsert_ne]

theorem compare_stored_fields (m : MoAnalysis) (a b : String) (bop sop : Value) :
    ∃ d, aGet (set_mo_analysis_signal_compare m a b bop
        sop).mo_analysis_signals (a ++ "_comp_" ++ b) = Option.some d ∧
      aGet d "type" = Option.some (Value.str "comparison") ∧
      aGet d "indicator_1" = Option.some (Value.str a) ∧
      aGet d "indicator_2" = Option.some (Value.str b) ∧
      aGet d "buy_operator" = Option.some bop ∧
      aGet d "condition_sell" = Option.some sop ∧
      aGet d "sell_operator"
        = aGet ((aGet m.mo_analysis_signals (a ++ "_comp_" ++ b)).getD [])
            "sell_operator" := by
  simp only [set_mo_analysis_signal_compare]
  refine ⟨_, aGet_aInsert_self _ _ _, ?_, ?_, ?_, ?_, ?_, ?_⟩ <;>
    simp [aGet_aInsert_self, aGet_aInsert_ne]
  by_cases hc : m.mo_analysis_signals.any (fun p => p.1 = a ++ "_comp_" ++ b)
  · simp [hc]
  · have hn : aGet m.mo_analysis_signals (a ++ "_comp_" ++ b) = Option.none :=
      (any_false_iff_aGet_none _ _).mp (Bool.eq_false_iff.mpr hc)
    simp [hc, hn, aGet_append_of_none _ _ _ hn, aGet]

theorem compare_mapFst (m : MoAnalysis) (a b : String) (bop sop : Value) :
    (set_mo_analysis_signal_compare m a b bop
        sop).mo_analysis_signals.map Prod.fst
      = m.mo_analysis_signals.map Prod.fst ∨
    (set_mo_analysis_signal_compare m a b bop
        sop).mo_analysis_signals.map Prod.fst
      = m.mo_analysis_signals.map Prod.fst ++ [a ++ "_comp_" ++ b] := by
  by_cases hc : (m.mo_analysis_signals.any
      (fun p => p.1 = a ++ "_comp_" ++ b)) = true
  · left
    simp only [set_mo_analysis_signal_compare]
    rw [hc]
    simp only [if_pos]
    exact mapFst_aInsert_of_any _ _ _ hc
  · right
    have hc' : (m.mo_analysis_signals.any
        (fun p => p.1 = a ++ "_comp_" ++ b)) = false := Bool.eq_false_iff.mpr hc
    simp only [set_mo_analysis_signal_compare]
    rw [hc']
    simp only [Bool.false_eq_true, if_false]
    have hany2 : ((m.mo_analysis_signals
        ++ [(a ++ "_comp_" ++ b, ([] : RuleDict))]).any
        (fun p => p.1 = a ++ "_comp_" ++ b)) = true := by
      simp
    rw [mapFst_aInsert_of_any _ _ _ hany2]
    simp

/-
Claim theorems.
-/

/-- C1 counterexample: calling `set_mo_analysis_signal` on an empty
registry with `buy_max = 40` while every max operator is omitted (`None`)
does not raise and does not leave the registry unchanged: the rule is
added, with `buy_max` present and `buy_operator_max` stored as `None`, so
a reachable registry state holds a threshold rule whose max cutoff is
present while its max operator is absent. -/
theorem C1_counterexample :
    (mo_analysis_init sfEx).mo_analysis_signals = [] ∧
    (set_mo_analysis_signal (mo_analysis_init sfEx) "rsi" (Value.num 30)
        (Value.num 70) (Value.op RelOp.GT) (Value.op RelOp.LT) (Value.num 40)
        Value.none Value.none Value.none).mo_analysis_signals
      = [("rsi",
          [("buy", Value.num 30), ("sell", Value.num 70),
           ("buy_operator", Value.op RelOp.GT),
           ("sell_operator", Value.op RelOp.LT), ("buy_max", Value.num 40),
           ("sell_max", Value.none), ("buy_operator_max", Value.none),
           ("sell_operator_max", Value.none)])] := by
  decide

/-- C1 amended: for every call to `set_mo_analysis_signal` in which a max
cutoff value is supplied but its paired max operator is omitted (`None`),
the call succeeds without error and the rule is stored, carrying the max
cutoff value with `None` in the paired max-operator field; the registry
therefore can hold threshold rules whose max cutoff is present while the
corresponding max operator is absent. -/
theorem C1_amended_max_without_operator_registers (m : MoAnalysis)
    (ind : String) (b s cb cs bm : Value) :
    ∃ d, aGet (set_mo_analysis_signal m ind b s cb cs bm Value.none Value.none
        Value.none).mo_analysis_signals ind = Option.some d ∧
      aGet d "buy_max" = Option.some bm ∧
      aGet d "buy_operator_max" = Option.some Value.none ∧
      aGet d "sell_max" = Option.some Value.none ∧
      aGet d "sell_operator_max" = Option.some Value.none := by
  obtain ⟨d, h0, -, -, -, -, h5, h6, h7, h8⟩ :=
    set_signal_stored_fields m ind b s cb cs bm Value.none Value.none Value.none
  exact ⟨d, h0, h5, h7, h6, h8⟩

/-- C2 counterexample: in a registry holding the single rule `ema`,
looking up the never-registered name `sma` returns the entire (non-empty)
registry mapping, which is registry content rather than an explicit
absence value. -/
theorem C2_counterexample :
    aGet exThreshold.mo_analysis_signals "sma" = Option.none ∧
    get_mo_analysis_signal exThreshold (Option.some "sma")
      = GetResult.registry exThreshold.mo_analysis_signals ∧
    exThreshold.mo_analysis_signals ≠ [] := by
  decide

/-- C2 amended: for every name that was never registered,
`get_mo_analysis_signal` with that name does not throw and returns the
entire registry mapping (never a single rule), rather than an explicit
absence value. -/
theorem C2_amended_unknown_returns_registry (m : MoAnalysis) (ind : String)
    (h : aGet m.mo_analysis_signals ind = Option.none) :
    get_mo_analysis_signal m (Option.some ind)
      = GetResult.registry m.mo_analysis_signals ∧
    ∀ d, get_mo_analysis_signal m (Option.some ind) ≠ GetResult.rule d := by
  unfold get_mo_analysis_signal
  by_cases he : ind = "" <;> simp [he, h]

/-- C2 witness: the amended C2 theorem applied to the concrete registry
`exThreshold` and the unregistered name `vwap`. -/
theorem C2_amended_witness :
    aGet exThreshold.mo_analysis_signals "vwap" = Option.none ∧
    (get_mo_analysis_signal exThreshold (Option.some "vwap")
       = GetResult.registry exThreshold.mo_analysis_signals ∧
     ∀ d, get_mo_analysis_signal exThreshold (Option.some "vwap")
       ≠ GetResult.rule d) :=
  ⟨by decide, C2_amended_unknown_returns_registry exThreshold "vwap" (by decide)⟩

/-- C3 counterexample: after `set_mo_analysis_signal_compare` with
operators GT and LT on indicators `A` and `B`, the stored rule has no
`sell_operator` field at all; the sell operator LT sits under the field
`condition_sell` instead. -/
theorem C3_counterexample :
    aGet ((aGet (set_mo_analysis_signal_compare (mo_analysis_init sfEx) "A" "B"
        (Value.op RelOp.GT) (Value.op RelOp.LT)).mo_analysis_signals
        "A_comp_B").getD []) "sell_operator" = Option.none ∧
    aGet ((aGet (set_mo_analysis_signal_compare (mo_analysis_init sfEx) "A" "B"
        (Value.op RelOp.GT) (Value.op RelOp.LT)).mo_analysis_signals
        "A_comp_B").getD []) "condition_sell"
      = Option.some (Value.op RelOp.LT) := by
  decide

/-- C3 amended: after `set_mo_analysis_signal_compare(a, b, buy_op,
sell_op)` the rule stored under the derived key carries `buy_op` in its
`buy_operator` field, but `sell_op` is stored under the field
`condition_sell`, not `sell_operator`; the `sell_operator` field is never
written by this operation (it keeps whatever the prior dictionary held). -/
theorem C3_amended_operators_stored (m : MoAnalysis) (a b : String)
    (bop sop : Value) :
    ∃ d, aGet (set_mo_analysis_signal_compare m a b bop
        sop).mo_analysis_signals (a ++ "_comp_" ++ b) = Option.some d ∧
      aGet d "buy_operator" = Option.some bop ∧
      aGet d "condition_sell" = Option.some sop ∧
      aGet d "sell_operator"
        = aGet ((aGet m.mo_analysis_signals (a ++ "_comp_" ++ b)).getD [])
            "sell_operator" := by
  obtain ⟨d, h0, -, -, -, h4, h5, h6⟩ := compare_stored_fields m a b bop sop
  exact ⟨d, h0, h4, h5, h6⟩

/-- C4: for every registry state in which a threshold name is not yet
registered, registering it and then registering the same name a second
time overwrites the rule in place: the key sequence (hence entry count and
iteration order) and the `_mo_analysis_key` list are unchanged by the
second registration, and a lookup of the name afterwards returns exactly
the second registration's eight fields. -/
theorem C4_reregister_overwrites_in_place (m : MoAnalysis) (ind : String)
    (b1 s1 cb1 cs1 bm1 sm1 cbm1 csm1 b2 s2 cb2 cs2 bm2 sm2 cbm2 csm2 : Value)
    (h : aGet m.mo_analysis_signals ind = Option.none) :
    (set_mo_analysis_signal
        (set_mo_analysis_signal m ind b1 s1 cb1 cs1 bm1 sm1 cbm1 csm1)
        ind b2 s2 cb2 cs2 bm2 sm2 cbm2 csm2).mo_analysis_signals.map Prod.fst
      = (set_mo_analysis_signal m ind b1 s1 cb1 cs1 bm1 sm1 cbm1
          csm1).mo_analysis_signals.map Prod.fst ∧
    (set_mo_analysis_signal
        (set_mo_analysis_signal m ind b1 s1 cb1 cs1 bm1 sm1 cbm1 csm1)
        ind b2 s2 cb2 cs2 bm2 sm2 cbm2 csm2).mo_analysis_signals.length
      = (set_mo_analysis_signal m ind b1 s1 cb1 cs1 bm1 sm1 cbm1
          csm1).mo_analysis_signals.length ∧
    (set_mo_analysis_signal
        (set_mo_analysis_signal m ind b1 s1 cb1 cs1 bm1 sm1 cbm1 csm1)
        ind b2 s2 cb2 cs2 bm2 sm2 cbm2 csm2).mo_analysis_key
      = (set_mo_analysis_signal m ind b1 s1 cb1 cs1 bm1 sm1 cbm1
          csm1).mo_analysis_key ∧
    aGet (set_mo_analysis_signal
        (set_mo_analysis_signal m ind b1 s1 cb1 cs1 bm1 sm1 cbm1 csm1)
        ind b2 s2 cb2 cs2 bm2 sm2 cbm2 csm2).mo_analysis_signals ind
      = Option.some
          [("buy", b2), ("sell", s2), ("buy_operator", cb2),
           ("sell_operator", cs2), ("buy_max", bm2), ("sell_max", sm2),
           ("buy_operator_max", cbm2), ("sell_operator_max", csm2)] := by
  have hany : (m.mo_analysis_signals.any (fun p => p.1 = ind)) = false :=
    (any_false_iff_aGet_none _ _).mpr h
  have hd0 : aGet (m.mo_analysis_signals ++ [(ind, ([] : RuleDict))]) ind
      = Option.some [] := by
    rw [aGet_append_of_none _ _ _ h]
    simp [aGet]
  have key1 : (set_mo_analysis_signal m ind b1 s1 cb1 cs1 bm1 sm1 cbm1
      csm1).mo_analysis_signals
      = aInsert (m.mo_analysis_signals ++ [(ind, ([] : RuleDict))]) ind
          [("buy", b1), ("sell", s1), ("buy_operator", cb1),
           ("sell_operator", cs1), ("buy_max", bm1), ("sell_max", sm1),
           ("buy_operator_max", cbm1), ("sell_operator_max", csm1)] := by
    simp [set_mo_analysis_signal, hany, hd0, aInsert]
  have hget1 : aGet (set_mo_analysis_signal m ind b1 s1 cb1 cs1 bm1 sm1 cbm1
      csm1).mo_analysis_signals ind
      = Option.some
          [("buy", b1), ("sell", s1), ("buy_operator", cb1),
           ("sell_operator", cs1), ("buy_max", bm1), ("sell_max", sm1),
           ("buy_operator_max", cbm1), ("sell_operator_max", csm1)] := by
    rw [key1]
    exact aGet_aInsert_self _ _ _
  have hany1 : ((set_mo_analysis_signal m ind b1 s1 cb1 cs1 bm1 sm1 cbm1
      csm1).mo_analysis_signals.any (fun p => p.1 = ind)) = true := by
    rw [any_eq_isSome_aGet, hget1]
    rfl
  generalize hm1 : set_mo_analysis_signal m ind b1 s1 cb1 cs1 bm1 sm1 cbm1 csm1 = m1
    at key1 hget1 hany1 ⊢
  have key2 : (set_mo_analysis_signal m1 ind b2 s2 cb2 cs2 bm2 sm2 cbm2
      csm2).mo_analysis_signals
      = aInsert m1.mo_analysis_signals ind
          [("buy", b2), ("sell", s2), ("buy_operator", cb2),
           ("sell_operator", cs2), ("buy_max", bm2), ("sell_max", sm2),
           ("buy_operator_max", cbm2), ("sell_operator_max", csm2)] := by
    simp [set_mo_analysis_signal, hany1, hget1, aInsert]
  refine ⟨?_, ?_, ?_, ?_⟩
  · rw [key2]
    exact mapFst_aInsert_of_any _ _ _ hany1
  · have hmf : (set_mo_analysis_signal m1 ind b2 s2 cb2 cs2 bm2 sm2 cbm2
        csm2).mo_analysis_signals.map Prod.fst
        = m1.mo_analysis_signals.map Prod.fst := by
      rw [key2]
      exact mapFst_aInsert_of_any _ _ _ hany1
    have := congrArg List.length hmf
    simpa using this
  · simp [set_mo_analysis_signal, hany1]
  · rw [key2]
    exact aGet_aInsert_self _ _ _

/-- C4 witness: the C4 theorem applied to an empty registry and the name
`rsi`, registered twice with different fields; the lookup after the second
registration returns exactly the second registration's fields. -/
theorem C4_witness :
    aGet (mo_analysis_init sfEx).mo_analysis_signals "rsi" = Option.none ∧
    aGet (set_mo_analysis_signal
        (set_mo_analysis_signal (mo_analysis_init sfEx) "rsi" (Value.num 30)
          (Value.num 70) (Value.op RelOp.GT) (Value.op RelOp.LT) Value.none
          Value.none Value.none Value.none)
        "rsi" (Value.num 25) (Value.num 75) (Value.op RelOp.GE)
        (Value.op RelOp.LE) Value.none Value.none Value.none
        Value.none).mo_analysis_signals "rsi"
      = Option.some
          [("buy", Value.num 25), ("sell", Value.num 75),
           ("buy_operator", Value.op RelOp.GE),
           ("sell_operator", Value.op RelOp.LE), ("buy_max", Value.none),
           ("sell_max", Value.none), ("buy_operator_max", Value.none),
           ("sell_operator_max", Value.none)] :=
  ⟨by decide,
   (C4_reregister_overwrites_in_place (mo_analysis_init sfEx) "rsi"
     (Value.num 30) (Value.num 70) (Value.op RelOp.GT) (Value.op RelOp.LT)
     Value.none Value.none Value.none Value.none (Value.num 25) (Value.num 75)
     (Value.op RelOp.GE) (Value.op RelOp.LE) Value.none Value.none Value.none
     Value.none (by decide)).2.2.2⟩

/-- C5 counterexample: for the distinct names `X = "a_comp_a"` and
`Y = "a"`, both registration orders derive the same key
`a_comp_a_comp_a`, so registering `(X, Y)` and then `(Y, X)` leaves a
single registry entry, not two distinct entries. -/
theorem C5_counterexample :
    ("a_comp_a" : String) ≠ "a" ∧
    (set_mo_analysis_signal_compare
        (set_mo_analysis_signal_compare (mo_analysis_init sfEx) "a_comp_a" "a"
          (Value.op RelOp.GT) (Value.op RelOp.LT))
        "a" "a_comp_a" (Value.op RelOp.GT)
        (Value.op RelOp.LT)).mo_analysis_signals.length = 1 := by
  decide

/-- C5 amended: `set_mo_analysis_signal_compare(a, b, ...)` stores its
rule under exactly the derived key `a ++ "_comp_" ++ b` (the key sequence
gains at most that one key), and registering `(X, Y)` and then `(Y, X)`
produces two distinct registry entries whenever the two derived keys
differ — which distinctness of `X` and `Y` alone does not guarantee, as
the counterexample `X = "a_comp_a"`, `Y = "a"` shows. -/
theorem C5_amended_distinct_keys (m : MoAnalysis) (X Y : String)
    (b1 s1 b2 s2 : Value)
    (h : X ++ "_comp_" ++ Y ≠ Y ++ "_comp_" ++ X) :
    ((set_mo_analysis_signal_compare m X Y b1
        s1).mo_analysis_signals.map Prod.fst
      = m.mo_analysis_signals.map Prod.fst ∨
     (set_mo_analysis_signal_compare m X Y b1
        s1).mo_analysis_signals.map Prod.fst
      = m.mo_analysis_signals.map Prod.fst ++ [X ++ "_comp_" ++ Y]) ∧
    (aGet (set_mo_analysis_signal_compare m X Y b1 s1).mo_analysis_signals
        (X ++ "_comp_" ++ Y)).isSome = true ∧
    (aGet (set_mo_analysis_signal_compare
        (set_mo_analysis_signal_compare m X Y b1 s1) Y X b2
        s2).mo_analysis_signals (X ++ "_comp_" ++ Y)).isSome = true ∧
    (aGet (set_mo_analysis_signal_compare
        (set_mo_analysis_signal_compare m X Y b1 s1) Y X b2
        s2).mo_analysis_signals (Y ++ "_comp_" ++ X)).isSome = true := by
  obtain ⟨d1, hd1, -, -, -, -, -, -⟩ := compare_stored_fields m X Y b1 s1
  generalize hm1 : set_mo_analysis_signal_compare m X Y b1 s1 = m1 at hd1 ⊢
  obtain ⟨d2, hd2, -, -, -, -, -, -⟩ := compare_stored_fields m1 Y X b2 s2
  refine ⟨?_, ?_, ?_, ?_⟩
  · rw [← hm1]
    exact compare_mapFst m X Y b1 s1
  · rw [hd1]
    rfl
  · have hne : X ++ "_comp_" ++ Y ≠ Y ++ "_comp_" ++ X := h
    by_cases hc : (m1.mo_analysis_signals.any
        (fun p => p.1 = Y ++ "_comp_" ++ X)) = true
    · have : aGet (set_mo_analysis_signal_compare m1 Y X b2
          s2).mo_analysis_signals (X ++ "_comp_" ++ Y)
          = aGet m1.mo_analysis_signals (X ++ "_comp_" ++ Y) := by
        simp only [set_mo_analysis_signal_compare]
        rw [hc]
        simp only [if_pos]
        exact aGet_aInsert_ne _ _ _ _ hne
      rw [this, hd1]
      rfl
    · have hc' : (m1.mo_analysis_signals.any
          (fun p => p.1 = Y ++ "_comp_" ++ X)) = false := Bool.eq_false_iff.mpr hc
      have : aGet (set_mo_analysis_signal_compare m1 Y X b2
          s2).mo_analysis_signals (X ++ "_comp_" ++ Y)
          = aGet (m1.mo_analysis_signals
              ++ [(Y ++ "_comp_" ++ X, ([] : RuleDict))]) (X ++ "_comp_" ++ Y) := by
        simp only [set_mo_analysis_signal_compare]
        rw [hc']
        simp only [Bool.false_eq_true, if_false]
        exact aGet_aInsert_ne _ _ _ _ hne
      rw [this, aGet_append_of_some _ _ _ _ hd1]
      rfl
  · rw [hd2]
    rfl

/-- C5 witness: the amended C5 theorem applied to the names `A` and `B`,
whose derived keys `A_comp_B` and `B_comp_A` differ; after both
registrations the second key is present. -/
theorem C5_witness :
    ("A" : String) ++ "_comp_" ++ "B" ≠ "B" ++ "_comp_" ++ "A" ∧
    (aGet (set_mo_analysis_signal_compare
        (set_mo_analysis_signal_compare (mo_analysis_init sfEx) "A" "B"
          (Value.op RelOp.GT) (Value.op RelOp.LT))
        "B" "A" (Value.op RelOp.GE)
        (Value.op RelOp.LE)).mo_analysis_signals
        ("B" ++ "_comp_" ++ "A")).isSome = true :=
  ⟨by decide,
   (C5_amended_distinct_keys (mo_analysis_init sfEx) "A" "B"
     (Value.op RelOp.GT) (Value.op RelOp.LT) (Value.op RelOp.GE)
     (Value.op RelOp.LE) (by decide)).2.2.2⟩

/-- C6: for a threshold rule with `buy = 10`, `buy_operator = GT`,
`buy_max = 20`, `buy_max_operator = GT`, the evaluator yields buy = true
at indicator value 15, buy = false at value 25 (the otherwise-qualifying
buy is suppressed because the max-guard operator holds against 20), and
buy = false at value 5. -/
theorem C6_threshold_max_guard :
    thresholdBuySignal 10 RelOp.GT (Option.some 20) (Option.some RelOp.GT) 15
      = true ∧
    thresholdBuySignal 10 RelOp.GT (Option.some 20) (Option.some RelOp.GT) 25
      = false ∧
    thresholdBuySignal 10 RelOp.GT (Option.some 20) (Option.some RelOp.GT) 5
      = false := by
  decide

/-- C7: neither registration operation changes anything outside the
registry's rule storage and key-order lists: the held frame, the
stock-frame reference, the symbol grouping and the
`_current_mo_analysis` dictionary are unchanged by every
`set_mo_analysis_signal` and `set_mo_analysis_signal_compare` call. -/
theorem C7_registration_touches_only_registry (m : MoAnalysis)
    (ind a b : String) (v1 v2 v3 v4 v5 v6 v7 v8 w1 w2 : Value) :
    ((set_mo_analysis_signal m ind v1 v2 v3 v4 v5 v6 v7 v8).frame = m.frame ∧
     (set_mo_analysis_signal m ind v1 v2 v3 v4 v5 v6 v7 v8).stock_frame
       = m.stock_frame ∧
     (set_mo_analysis_signal m ind v1 v2 v3 v4 v5 v6 v7 v8).price_groups
       = m.price_groups ∧
     (set_mo_analysis_signal m ind v1 v2 v3 v4 v5 v6 v7 v8).current_mo_analysis
       = m.current_mo_analysis) ∧
    ((set_mo_analysis_signal_compare m a b w1 w2).frame = m.frame ∧
     (set_mo_analysis_signal_compare m a b w1 w2).stock_frame
       = m.stock_frame ∧
     (set_mo_analysis_signal_compare m a b w1 w2).price_groups
       = m.price_groups ∧
     (set_mo_analysis_signal_compare m a b w1 w2).current_mo_analysis
       = m.current_mo_analysis) :=
  ⟨⟨rfl, rfl, rfl, rfl⟩, ⟨rfl, rfl, rfl, rfl⟩⟩

/-- C8: for every registry state and every indicator name that is not a
key of the registry, `get_mo_analysis_signal` with that name returns the
entire registry mapping, identical to the value returned when the
function is called with no name at all. -/
theorem C8_unknown_name_returns_whole_registry (m : MoAnalysis) (ind : String)
    (h : aGet m.mo_analysis_signals ind = Option.none) :
    get_mo_analysis_signal m (Option.some ind)
      = get_mo_analysis_signal m Option.none ∧
    get_mo_analysis_signal m Option.none
      = GetResult.registry m.mo_analysis_signals := by
  unfold get_mo_analysis_signal
  by_cases he : ind = "" <;> simp [he, h]

/-- C8 witness: the C8 theorem applied to the concrete registry
`exThreshold` and the unregistered name `tsf`. -/
theorem C8_witness :
    aGet exThreshold.mo_analysis_signals "tsf" = Option.none ∧
    (get_mo_analysis_signal exThreshold (Option.some "tsf")
       = get_mo_analysis_signal exThreshold Option.none ∧
     get_mo_analysis_signal exThreshold Option.none
       = GetResult.registry exThreshold.mo_analysis_signals) :=
  ⟨by decide, C8_unknown_name_returns_whole_registry exThreshold "tsf" (by decide)⟩

/-- C9: for every threshold name already registered, re-registering that
name while omitting the optional max arguments (Python default `None`)
overwrites all eight threshold fields, so the four max fields of the
stored rule all become `None`; no optional field from the earlier
registration is retained. -/
theorem C9_reregistration_resets_max_fields (m : MoAnalysis) (ind : String)
    (b s cb cs : Value)
    (h : (aGet m.mo_analysis_signals ind).isSome = true) :
    ∃ d, aGet (set_mo_analysis_signal m ind b s cb cs Value.none Value.none
        Value.none Value.none).mo_analysis_signals ind = Option.some d ∧
      aGet d "buy" = Option.some b ∧
      aGet d "sell" = Option.some s ∧
      aGet d "buy_operator" = Option.some cb ∧
      aGet d "sell_operator" = Option.some cs ∧
      aGet d "buy_max" = Option.some Value.none ∧
      aGet d "sell_max" = Option.some Value.none ∧
      aGet d "buy_operator_max" = Option.some Value.none ∧
      aGet d "sell_operator_max" = Option.some Value.none :=
  set_signal_stored_fields m ind b s cb cs Value.none Value.none Value.none
    Value.none

/-- C9 witness: the C9 theorem applied to `exWithMax`, whose `ema` rule
holds all four max-guard values, re-registered without max arguments. -/
theorem C9_witness :
    (aGet exWithMax.mo_analysis_signals "ema").isSome = true ∧
    (∃ d, aGet (set_mo_analysis_signal exWithMax "ema" (Value.num 60)
        (Value.num 20) (Value.op RelOp.GE) (Value.op RelOp.LE) Value.none
        Value.none Value.none Value.none).mo_analysis_signals "ema"
        = Option.some d ∧
      aGet d "buy" = Option.some (Value.num 60) ∧
      aGet d "sell" = Option.some (Value.num 20) ∧
      aGet d "buy_operator" = Option.some (Value.op RelOp.GE) ∧
      aGet d "sell_operator" = Option.some (Value.op RelOp.LE) ∧
      aGet d "buy_max" = Option.some Value.none ∧
      aGet d "sell_max" = Option.some Value.none ∧
      aGet d "buy_operator_max" = Option.some Value.none ∧
      aGet d "sell_operator_max" = Option.some Value.none) :=
  ⟨by decide,
   C9_reregistration_resets_max_fields exWithMax "ema" (Value.num 60)
     (Value.num 20) (Value.op RelOp.GE) (Value.op RelOp.LE) (by decide)⟩

/-- C10: assigning a new frame through the `price_data_frame` setter
changes only the internally held frame; every other attribute is
unchanged, and on an object built by `__init__` the stock-frame reference
and the symbol-group handle still refer to the originally supplied
StockFrame after the assignment. -/
theorem C10_setter_changes_only_frame (m : MoAnalysis) (sf : StockFrame)
    (f : Frame) :
    ((price_data_frame_set m f).frame = f ∧
     (price_data_frame_set m f).stock_frame = m.stock_frame ∧
     (price_data_frame_set m f).price_groups = m.price_groups ∧
     (price_data_frame_set m f).current_mo_analysis = m.current_mo_analysis ∧
     (price_data_frame_set m f).mo_analysis_signals = m.mo_analysis_signals ∧
     (price_data_frame_set m f).mo_analysis_comp_key
       = m.mo_analysis_comp_key ∧
     (price_data_frame_set m f).mo_analysis_key = m.mo_analysis_key) ∧
    ((price_data_frame_set (mo_analysis_init sf) f).stock_frame = sf ∧
     (price_data_frame_set (mo_analysis_init sf) f).price_groups
       = sf.symbol_groups ∧
     price_data_frame (price_data_frame_set (mo_analysis_init sf) f) = f) :=
  ⟨⟨rfl, rfl, rfl, rfl, rfl, rfl, rfl⟩, ⟨rfl, rfl, rfl⟩⟩

end MoAnalysisModel
